import Mathlib

/-!
Verification of the ImageToASCIIArt pipeline (`src/lib/process.go`) against its
natural-language specification.

Modelling conventions (shallow embedding of the Go source):
* Go strings are modelled as `List Char`; the labels, color strings and style
  strings the pipeline handles are ASCII, where Go's byte indexing and byte
  length coincide with the char-list view.
* Go `float64` arithmetic is modelled by exact rational arithmetic (`ℚ`);
  `int(x)` / `uint8(x)` conversions of nonnegative floats truncate toward zero,
  modelled by `goTrunc`.
* Machine integers are modelled by `ℕ`/`ℤ`; Go's `uint8(int64)` conversion
  takes the value modulo 2^8 (`u8ofInt`).
* Pixels: `Pix16` is the 16-bit alpha-premultiplied view returned by Go's
  `color.Color.RGBA()`; `Pix8` is the byte storage of an `image.RGBA` canvas
  (the output of `handleTransparency`, which allocates `image.NewRGBA`).
* External library calls (image decoding, the `imaging` adjustments, the
  `image2ascii` converter, the ANSI parser, the svgo serializer) are passed in
  as explicit function parameters (`Collab`); everything written in
  `process.go` itself is embedded directly.
-/

namespace ImageToASCIIArt

/-- Go strings, viewed as char (byte) lists. -/
abbrev GoStr := List Char

/-- Go's conversion of a nonnegative-or-negative float to an integer type:
truncation toward zero (`int(x)`, and `uint8(x)` for in-range values). -/
def goTrunc (q : ℚ) : ℤ := if q < 0 then -⌊-q⌋ else ⌊q⌋

/-- Go's `uint8(i)` conversion of an integer: the value modulo 2^8. -/
def u8ofInt (i : ℤ) : ℕ := (i % 256).toNat

/-- 16-bit alpha-premultiplied pixel view, as returned by `color.Color.RGBA()`. -/
structure Pix16 where
  r : ℕ
  g : ℕ
  b : ℕ
  a : ℕ
deriving DecidableEq

/-- 8-bit RGBA pixel as stored in an `image.RGBA` canvas. -/
structure Pix8 where
  r : ℕ
  g : ℕ
  b : ℕ
  a : ℕ
deriving DecidableEq

/-- An 8-bit color with implicit full alpha, as built by `parseHexColor`
(`color.RGBA{R,G,B,0xFF}`). -/
structure RGB8 where
  r : ℕ
  g : ℕ
  b : ℕ
deriving DecidableEq

/-- `color.White` as an 8-bit RGB triple (its `RGBA()` view is 0xFFFF on every
channel, i.e. 255 per byte). -/
def white : RGB8 := ⟨255, 255, 255⟩

/-- The 16-bit `RGBA()` view of a stored 8-bit pixel (`v * 0x101` per channel). -/
def pix16View (q : Pix8) : Pix16 := ⟨q.r * 257, q.g * 257, q.b * 257, q.a * 257⟩

/-- Value of one hex digit as accepted by Go's `strconv.ParseInt(_, 16, 64)`
(digits `0-9`, `a-f`, `A-F`). -/
def hexDigitVal (c : Char) : Option ℕ :=
  if '0' ≤ c ∧ c ≤ '9' then some (c.toNat - '0'.toNat)
  else if 'a' ≤ c ∧ c ≤ 'f' then some (10 + c.toNat - 'a'.toNat)
  else if 'A' ≤ c ∧ c ≤ 'F' then some (10 + c.toNat - 'A'.toNat)
  else none

/-- Digit loop of Go's `strconv.ParseUint(_, 16, _)`. -/
def parseUintHexAux : List Char → ℕ → Option ℕ
  | [], acc => some acc
  | c :: rest, acc =>
    match hexDigitVal c with
    | none => none
    | some d => parseUintHexAux rest (acc * 16 + d)

/-- Go's `strconv.ParseUint(s, 16, 64)` on a short string (no digits is an
error; the 64-bit overflow bound cannot trigger on the 2-char inputs used by
`parseHexColor`). -/
def parseUintHex (s : List Char) : Option ℕ :=
  if s = [] then none else parseUintHexAux s 0

/-- Go's `strconv.ParseInt(s, 16, 64)`: an optional leading sign followed by a
nonempty run of hex digits. -/
def goParseIntHex : List Char → Option ℤ
  | '+' :: rest => (parseUintHex rest).map (fun n => (n : ℤ))
  | '-' :: rest => (parseUintHex rest).map (fun n => -(n : ℤ))
  | s => (parseUintHex s).map (fun n => (n : ℤ))

/-- `strings.TrimPrefix(hex, "#")`. -/
def trimHash : GoStr → GoStr
  | '#' :: rest => rest
  | s => s

/-- The 3-character duplication step of `parseHexColor`
(`hex[0]hex[0]hex[1]hex[1]hex[2]hex[2]`); other lengths pass through. -/
def expand3 : GoStr → GoStr
  | [a, b, c] => [a, a, b, b, c, c]
  | s => s

/-- `parseHexColor` from `process.go`: strip an optional `#`, duplicate a
3-char string, require exactly 6 chars, parse the three 2-char groups with
`strconv.ParseInt(_, 16, 64)` and convert each to `uint8`. -/
def parseHexColor (hexs : GoStr) : Option RGB8 :=
  let h := expand3 (trimHash hexs)
  if h.length = 6 then
    match goParseIntHex (h.take 2), goParseIntHex ((h.drop 2).take 2),
          goParseIntHex (h.drop 4) with
    | some r, some g, some b => some ⟨u8ofInt r, u8ofInt g, u8ofInt b⟩
    | _, _, _ => none
  else none

/-- `uint32(math.Floor(threshold * 65535))` from `handleTransparency`
(the pipeline only calls this with `threshold` clamped into `[0,1]`). -/
def alphaThresholdOf (t : ℚ) : ℕ := (⌊t * 65535⌋).toNat

/-- Go `uint8(q)` for a nonnegative float value. -/
def goU8ofRat (q : ℚ) : ℕ := (goTrunc q).toNat

/-- One blended channel from the middle branch of `handleTransparency`:
`uint8(((v/65535)*af + (tv*0x101/65535)*(1-af)) * 255)` where `tv` is the
substitute's byte value and `af` the alpha factor. -/
def blendChan (v tv : ℕ) (af : ℚ) : ℕ :=
  goU8ofRat ((((v : ℚ) / 65535) * af + (((tv : ℚ) * 257) / 65535) * (1 - af)) * 255)

/-- The per-pixel body of `handleTransparency`'s double loop, acting on the
16-bit `RGBA()` view of a source pixel and storing into the 8-bit canvas:
below the threshold the substitute color is stored; partially transparent
pixels are alpha-blended with the substitute and forced opaque; fully opaque
pixels are stored via the canvas' `RGBAModel` conversion (`v >> 8`). -/
def handleTransparencyPixel (tc : RGB8) (T : ℕ) (p : Pix16) : Pix8 :=
  if p.a < T then ⟨tc.r, tc.g, tc.b, 255⟩
  else if p.a < 65535 then
    let af : ℚ := (p.a : ℚ) / 65535
    ⟨blendChan p.r tc.r af, blendChan p.g tc.g af, blendChan p.b tc.b af, 255⟩
  else ⟨p.r / 256, p.g / 256, p.b / 256, p.a / 256⟩

/-- Per-pixel `handleTransparency` including its prelude: resolve the
substitute color (falling back to `color.White` when `parseHexColor` fails)
and compute the alpha threshold. -/
def handleTransparencyPixelStr (s : GoStr) (t : ℚ) (p : Pix16) : Pix8 :=
  handleTransparencyPixel ((parseHexColor s).getD white) (alphaThresholdOf t) p

/-- Claim-side formula for one blended channel, written exactly as the spec
states it at the 16-bit scale: `out = orig*(a/65535) + substitute*(1 - a/65535)`,
then stored as the byte `out/65535 * 255` (truncated). -/
def blendChanSpec (v tv a : ℕ) : ℕ :=
  (⌊((v : ℚ) * ((a : ℚ) / 65535) + ((tv : ℚ) * 257) * (1 - (a : ℚ) / 65535)) / 65535 * 255⌋).toNat

/-! ### Constants from `process.go` -/

def MaxImageSize : ℕ := 50 * 1024 * 1024

def MaxOutputSize : ℕ := 10 * 1024 * 1024

def MaxASCIIChars : ℕ := 5000000

def MaxASCIIDimension : ℤ := 500

def maxStyledElements : ℕ := 100000

def lineHeight : ℤ := 16

def charWidth : ℤ := 16

def paddingTop : ℤ := -2

def paddingBottom : ℤ := 2

def paddingLeft : ℤ := 1

def paddingRight : ℤ := -6

/-! ### Options, validation, defaults -/

/-- The `Options` struct (`float64` fields modelled as `ℚ`). -/
structure Options where
  TargetWidth : ℤ
  Brightness : ℚ
  Contrast : ℚ
  Sharpen : ℚ
  BackgroundColor : GoStr
  TransparencyColor : GoStr
  TransparencyThreshold : ℚ
deriving DecidableEq

/-- The pipeline's typed failures, one constructor per `fmt.Errorf` site,
named after the spec's error taxonomy (§7). `nilDecoded` is the
"decoded image is nil" check and `nilStyled` the "styled text is nil after
parsing" check, both defensive cases outside the spec taxonomy. -/
inductive PErr where
  | emptyInput
  | inputTooLarge
  | invalidOption
  | decodeError
  | nilDecoded
  | invalidDimensions
  | conversionFailed
  | outputTooLarge
  | parseError
  | nilStyled
  | tooManyElements
  | nilInput
deriving DecidableEq

/-- `validateInput` from `process.go`: empty data, then the 50 MiB ceiling,
then positivity of the target width, in that order. -/
def validateInput (imageData : List ℕ) (opts : Options) : Except PErr Unit :=
  if imageData.length = 0 then .error .emptyInput
  else if imageData.length > MaxImageSize then .error .inputTooLarge
  else if opts.TargetWidth ≤ 0 then .error .invalidOption
  else .ok ()

/-- `(*Options).setDefaults`: default empty colors, clamp the threshold into
`[0,1]` via `math.Max(0, math.Min(1, t))`. -/
def setDefaults (o : Options) : Options :=
  { o with
    BackgroundColor := if o.BackgroundColor = [] then String.toList "#000000" else o.BackgroundColor
    TransparencyColor := if o.TransparencyColor = [] then String.toList "#FFFFFF" else o.TransparencyColor
    TransparencyThreshold := max 0 (min 1 o.TransparencyThreshold) }

/-! ### Glyph-grid sizing (`convertToASCII`) -/

/-- `options.FixedHeight` before the caps: `int(targetWidth * aspectRatio)`
with `aspectRatio = h/w`, floored at 1. -/
def asciiPreHeight (w h : ℕ) (tw : ℤ) : ℤ :=
  let fh0 := goTrunc ((tw : ℚ) * ((h : ℚ) / (w : ℚ)))
  if fh0 < 1 then 1 else fh0

/-- The width cap of `convertToASCII`: if `FixedWidth > 500`, set it to 500
and rescale the height by `500/FixedWidth`. -/
def asciiStage1 (w h : ℕ) (tw : ℤ) : ℤ × ℤ :=
  if MaxASCIIDimension < tw then
    (MaxASCIIDimension,
     goTrunc ((asciiPreHeight w h tw : ℚ) * ((MaxASCIIDimension : ℚ) / (tw : ℚ))))
  else (tw, asciiPreHeight w h tw)

/-- The dimension computation of `convertToASCII`: `FixedWidth := targetWidth`;
`FixedHeight := int(targetWidth * (h/w))` floored at 1; then a width cap at 500
rescaling the height, then a height cap at 500 rescaling the width. -/
def asciiDims (w h : ℕ) (tw : ℤ) : ℤ × ℤ :=
  if MaxASCIIDimension < (asciiStage1 w h tw).2 then
    (goTrunc (((asciiStage1 w h tw).1 : ℚ) *
      ((MaxASCIIDimension : ℚ) / ((asciiStage1 w h tw).2 : ℚ))), MaxASCIIDimension)
  else asciiStage1 w h tw

/-! ### Styled text (`go-ansi-parser` values) and line splitting -/

/-- The part of `ansi.Col` the renderer reads (its `Hex` field). -/
structure Col where
  hex : GoStr
deriving DecidableEq

/-- `ansi.StyledText`: a text label with optional foreground/background colors
and a style bitfield. -/
structure StyledText where
  label : GoStr
  fgCol : Option Col
  bgCol : Option Col
  style : ℤ
deriving DecidableEq

/-- `strings.Split(s, "\n")` for a single-char separator. -/
def splitParts : GoStr → List GoStr
  | [] => [[]]
  | c :: rest =>
    if c = '\n' then [] :: splitParts rest
    else
      match splitParts rest with
      | [] => [[c]]
      | p :: ps => (c :: p) :: ps

/-- The copy of a block made for one newline-free part in
`splitStyledTextByLine` (label replaced, attributes kept). -/
def copyBlock (b : StyledText) (part : GoStr) : StyledText :=
  ⟨part, b.fgCol, b.bgCol, b.style⟩

/-- The inner `for i, part := range parts` loop of `splitStyledTextByLine`:
append each non-empty part to the current line, and flush the current line
after every part except the last. -/
def splitPartsFold (b : StyledText) :
    List GoStr → List (List StyledText) × List StyledText →
    List (List StyledText) × List StyledText
  | [], st => st
  | [last], (lines, cur) => (lines, if last = [] then cur else cur ++ [copyBlock b last])
  | part :: rest, (lines, cur) =>
    let cur' := if part = [] then cur else cur ++ [copyBlock b part]
    splitPartsFold b rest (lines ++ [cur'], [])

/-- `splitStyledTextByLine` from `process.go`: skip nil blocks, split each
label on `"\n"`, and append a final non-empty pending line. -/
def splitStyledTextByLine (styledText : List (Option StyledText)) : List (List StyledText) :=
  let st := styledText.foldl
    (fun acc ob =>
      match ob with
      | none => acc
      | some b => splitPartsFold b (splitParts b.label) acc)
    ([], [])
  if st.2.length > 0 then st.1 ++ [st.2] else st.1

/-! ### Canvas geometry and text-primitive rendering -/

/-- Character count of one line: `currentLineLength += len(styledChar.Label)`. -/
def lineLen (line : List StyledText) : ℕ :=
  line.foldl (fun acc r => acc + r.label.length) 0

/-- The running-maximum loop of `calculateSVGDimensions`. -/
def maxLineLen (lines : List (List StyledText)) : ℕ :=
  lines.foldl (fun m l => if lineLen l > m then lineLen l else m) 0

/-- `calculateSVGDimensions`: width and height from the longest line and the
line count, with positive floor values when the padded size is not positive. -/
def calculateSVGDimensions (lines : List (List StyledText)) : ℤ × ℤ :=
  let width := (maxLineLen lines : ℤ) * charWidth + paddingLeft + paddingRight
  let height := (lines.length : ℤ) * lineHeight + paddingTop + paddingBottom
  (if width ≤ 0 then charWidth + paddingLeft + paddingRight else width,
   if height ≤ 0 then lineHeight + paddingTop + paddingBottom else height)

/-- One `canvas.Text` call: position, text content and style string. -/
structure TextPrim where
  x : ℤ
  y : ℤ
  label : GoStr
  style : GoStr
deriving DecidableEq

/-- Foreground color resolution in `renderLine`: `#FFFFFF` unless the run has
a foreground color with a non-empty hex. -/
def textColorOf (r : StyledText) : GoStr :=
  match r.fgCol with
  | some c => if c.hex = [] then String.toList "#FFFFFF" else c.hex
  | none => String.toList "#FFFFFF"

/-- The style string `fmt.Sprintf` builds for a text primitive (the font size
constant 16 is interpolated). -/
def styleOf (r : StyledText) : GoStr :=
  String.toList "fill:" ++ textColorOf r ++
    String.toList "; font-family:monospace; font-size:16px; dominant-baseline:text-before-edge"

/-- The run loop of `renderLine`: empty labels are skipped, a label equal to
one single space advances the cursor silently, anything else emits one text
primitive and advances the cursor by `len(label) * charWidth`. -/
def renderLineAux : List StyledText → ℤ → ℤ → List TextPrim
  | [], _, _ => []
  | r :: rest, y, x =>
    if r.label = [] then renderLineAux rest y x
    else if r.label = [' '] then renderLineAux rest y (x + charWidth)
    else ⟨x, y, r.label, styleOf r⟩ :: renderLineAux rest y (x + (r.label.length : ℤ) * charWidth)

/-- `renderLine` from `process.go`. -/
def renderLine (line : List StyledText) (yPos startX : ℤ) : List TextPrim :=
  renderLineAux line yPos startX

/-- The per-line loop of `renderToSVG`: `yPos` starts at `paddingTop` and
advances by `lineHeight` per line, empty or not. -/
def renderAll : List (List StyledText) → ℤ → List TextPrim
  | [], _ => []
  | l :: ls, y => renderLine l y paddingLeft ++ renderAll ls (y + lineHeight)

/-- The vector document `renderToSVG` writes through svgo: canvas size, one
background rectangle with its fill style, and the ordered text primitives. -/
structure SVGDoc where
  width : ℤ
  height : ℤ
  rectStyle : GoStr
  texts : List TextPrim
deriving DecidableEq

/-- `renderToSVG` from `process.go` up to svgo serialization: nil input fails
with `NilInput`; otherwise split into lines, compute dimensions, emit the
background rect styled `fmt.Sprintf("fill:%s", backgroundColor)` and render
every line. -/
def renderToSVG (styledText : Option (List (Option StyledText))) (backgroundColor : GoStr) :
    Except PErr SVGDoc :=
  match styledText with
  | none => .error .nilInput
  | some st =>
    let lines := splitStyledTextByLine st
    let dims := calculateSVGDimensions lines
    .ok ⟨dims.1, dims.2, String.toList "fill:" ++ backgroundColor, renderAll lines paddingTop⟩

/-- The rect style of a successful render (`[]` on failure); lets theorems
speak about the emitted fill without an `∃`. -/
def rectStyleOf (e : Except PErr SVGDoc) : GoStr :=
  match e with
  | .ok d => d.rectStyle
  | .error _ => []

/-- The text primitives of a successful render (`[]` on failure). -/
def textsOf (e : Except PErr SVGDoc) : List TextPrim :=
  match e with
  | .ok d => d.texts
  | .error _ => []

/-! ### Images and the full pipeline -/

/-- A decoded pixel grid at the 16-bit `RGBA()` interface (bounds normalized
to start at the origin). -/
structure PixImage16 where
  w : ℕ
  h : ℕ
  pix : ℕ → ℕ → Pix16

/-- The 8-bit `image.RGBA` canvas produced by `handleTransparency`. -/
structure PixImage8 where
  w : ℕ
  h : ℕ
  pix : ℕ → ℕ → Pix8

/-- `handleTransparency` on a whole image: same bounds, every pixel mapped by
the per-pixel transform. -/
def handleTransparencyImg (img : PixImage16) (s : GoStr) (t : ℚ) : PixImage8 :=
  ⟨img.w, img.h, fun x y => handleTransparencyPixelStr s t (img.pix x y)⟩

/-- The external collaborators of the pipeline, passed as explicit functions:
`decode` is `image.Decode` (an error, or a possibly-nil image plus format
tag); `adjust` is the downsample/brightness/contrast/sharpen portion of
`processImage` (all done by the external `imaging` library); `image2ascii` is
`converter.Image2ASCIIString` with the computed fixed width/height;
`ansiParse` is `ansi.Parse` (an error, or a possibly-nil slice of
possibly-nil runs); `serialize` is svgo's rendering of the document into the
output buffer. -/
structure Collab where
  decode : List ℕ → Except Unit (Option PixImage16 × GoStr)
  adjust : PixImage16 → Options → PixImage16
  image2ascii : PixImage8 → ℤ → ℤ → GoStr
  ansiParse : GoStr → Except Unit (Option (List (Option StyledText)))
  serialize : SVGDoc → GoStr

/-- `decodeImage` from `process.go`: decode failure, a nil decoded image and
non-positive dimensions are each rejected. -/
def decodeImage (c : Collab) (imageData : List ℕ) : Except PErr (PixImage16 × GoStr) :=
  match c.decode imageData with
  | .error _ => .error .decodeError
  | .ok (none, _) => .error .nilDecoded
  | .ok (some img, fmtTag) =>
    if img.w = 0 ∨ img.h = 0 then .error .invalidDimensions
    else .ok (img, fmtTag)

/-- `processImage` from `process.go`: the resize/brightness/contrast/sharpen
adjustments (external library calls, folded into `c.adjust`) followed by
transparency compositing. -/
def processImage (c : Collab) (img : PixImage16) (opts : Options) : PixImage8 :=
  handleTransparencyImg (c.adjust img opts) opts.TransparencyColor opts.TransparencyThreshold

/-- `convertToASCII` from `process.go`: compute the glyph-grid dimensions,
run the external converter, reject an empty result and an oversized result
(the 1M/3M console warnings are side effects only and do not change the
result). -/
def convertToASCII (c : Collab) (img : PixImage8) (targetWidth : ℤ) : Except PErr GoStr :=
  let dims := asciiDims img.w img.h targetWidth
  let asciiString := c.image2ascii img dims.1 dims.2
  if asciiString = [] then .error .conversionFailed
  else if asciiString.length > MaxASCIIChars then .error .outputTooLarge
  else .ok asciiString

/-- `parseANSI` from `process.go`: empty input, parse failure, a nil slice
and more than 100000 runs are each rejected (the 30000-element console
warning is a side effect only). -/
def parseANSI (aparse : GoStr → Except Unit (Option (List (Option StyledText))))
    (asciiString : GoStr) : Except PErr (List (Option StyledText)) :=
  if asciiString = [] then .error .emptyInput
  else
    match aparse asciiString with
    | .error _ => .error .parseError
    | .ok none => .error .nilStyled
    | .ok (some styledText) =>
      if styledText.length > maxStyledElements then .error .tooManyElements
      else .ok styledText

/-- `ProcessImageToSVG` from `process.go`: validate, default the options,
decode, transform, convert to ASCII, extract runs, render, and reject an
oversized serialized document. -/
def ProcessImageToSVG (c : Collab) (imageData : List ℕ) (opts : Options) : Except PErr GoStr :=
  match validateInput imageData opts with
  | .error e => .error e
  | .ok _ =>
    let o := setDefaults opts
    match decodeImage c imageData with
    | .error e => .error e
    | .ok imgFmt =>
      let processedImg := processImage c imgFmt.1 o
      match convertToASCII c processedImg o.TargetWidth with
      | .error e => .error e
      | .ok asciiString =>
        match parseANSI c.ansiParse asciiString with
        | .error e => .error e
        | .ok styledText =>
          match renderToSVG (some styledText) o.BackgroundColor with
          | .error e => .error e
          | .ok doc =>
            let svgString := c.serialize doc
            if svgString.length > MaxOutputSize then .error .outputTooLarge
            else .ok svgString

/-- A trivial collaborator bundle used to instantiate pipeline theorems. -/
def trivCollab : Collab :=
  ⟨fun _ => .error (), fun img _ => img, fun _ _ _ => [], fun _ => .ok none, fun _ => []⟩

/-- A second, observably different collaborator bundle. -/
def trivCollab2 : Collab :=
  ⟨fun _ => .ok (none, []), fun img _ => img, fun _ _ _ => [' '], fun _ => .ok (some []),
   fun _ => ['x']⟩

/-! ### Spec-side definitions

These follow the wording of the specification (and, for corrected claims, the
amended wording), to be compared with the code-derived definitions above. -/

/-- Spec wording of `renderLine` (§4.6, amended for the single-space detail):
a left-to-right pass carrying the list of emitted primitives and the cursor. -/
def renderLineSpec (line : List StyledText) (y x0 : ℤ) : List TextPrim :=
  (line.foldl
    (fun acc r =>
      if r.label = [] then acc
      else if r.label = [' '] then (acc.1, acc.2 + charWidth)
      else (acc.1 ++ [⟨acc.2, y, r.label, styleOf r⟩], acc.2 + (r.label.length : ℤ) * charWidth))
    (([] : List TextPrim), x0)).1

/-- Spec wording of the run/line extraction (§4.5, §9): scan one block's label
char by char, accumulating a fragment; each literal newline flushes the
non-empty fragment into the current line and starts a new line; the end of the
block flushes the pending fragment without starting a new line. -/
def scanBlockChars (b : StyledText) :
    GoStr → GoStr → List (List StyledText) × List StyledText →
    List (List StyledText) × List StyledText
  | [], frag, (lines, cur) =>
    (lines, if frag = [] then cur else cur ++ [copyBlock b frag])
  | c :: cs, frag, (lines, cur) =>
    if c = '\n' then
      scanBlockChars b cs []
        (lines ++ [if frag = [] then cur else cur ++ [copyBlock b frag]], [])
    else scanBlockChars b cs (frag ++ [c]) (lines, cur)

/-- Spec wording of `splitStyledTextByLine`: scan every (non-nil) block, then
append a final non-empty pending line. -/
def splitStyledTextByLineSpec (styledText : List (Option StyledText)) : List (List StyledText) :=
  let st := (styledText.filterMap id).foldl
    (fun acc b => scanBlockChars b b.label [] acc) ([], [])
  if st.2 = [] then st.1 else st.1 ++ [st.2]

/-- Spec wording of the canvas geometry (§4.6): line length is the sum of the
character counts of the runs, the width uses the maximum line length over all
lines, and non-positive sizes are replaced by the one-cell floor values. -/
def calculateSVGDimensionsSpec (lines : List (List StyledText)) : ℤ × ℤ :=
  let maxLen : ℕ := (lines.map (fun l => (l.map (fun r => r.label.length)).sum)).foldr max 0
  let width := (maxLen : ℤ) * charWidth + paddingLeft + paddingRight
  let height := (lines.length : ℤ) * lineHeight + paddingTop + paddingBottom
  (if width ≤ 0 then charWidth + paddingLeft + paddingRight else width,
   if height ≤ 0 then lineHeight + paddingTop + paddingBottom else height)

/-! ### Theorems -/

/-- Claim C7: entry validation is fail-fast: empty bytes fail with
`EmptyInput`; bytes over the 50 MiB ceiling fail with `InputTooLarge`;
a non-positive `targetWidth` (once the byte checks pass) fails with
`InvalidOption`; and whenever validation fails the pipeline's result is
independent of every collaborator (so no decode or transform work is ever
attempted) and the whole pipeline aborts. -/
theorem claim_C7 : ∀ (c c' : Collab) (data : List ℕ) (opts : Options),
    (data = [] → ProcessImageToSVG c data opts = .error .emptyInput) ∧
    (MaxImageSize < data.length → ProcessImageToSVG c data opts = .error .inputTooLarge) ∧
    (data ≠ [] → data.length ≤ MaxImageSize → opts.TargetWidth ≤ 0 →
      ProcessImageToSVG c data opts = .error .invalidOption) ∧
    ((∃ e, validateInput data opts = .error e) →
      ProcessImageToSVG c data opts = ProcessImageToSVG c' data opts) := by
  intro c c' data opts
  refine ⟨fun h => ?_, fun h => ?_, fun h1 h2 h3 => ?_, fun ⟨e, he⟩ => ?_⟩
  · subst h
    simp [ProcessImageToSVG, validateInput]
  · have h0 : data.length ≠ 0 := by
      intro h0
      omega
    simp [ProcessImageToSVG, validateInput, h0, h]
  · have h0 : data.length ≠ 0 := by
      simpa [List.length_eq_zero] using h1
    simp [ProcessImageToSVG, validateInput, h0, not_lt.mpr h2, h3]
  · simp [ProcessImageToSVG, he]

/-- Witness for C7 at concrete inputs: empty data, a 50 MiB + 1 byte input,
a non-positive width, and collaborator independence. -/
theorem claim_C7_witness :
    ProcessImageToSVG trivCollab [] ⟨1, 0, 0, 0, [], [], 0⟩ = .error .emptyInput ∧
    ProcessImageToSVG trivCollab (List.replicate (MaxImageSize + 1) 0) ⟨1, 0, 0, 0, [], [], 0⟩ =
      .error .inputTooLarge ∧
    ProcessImageToSVG trivCollab [7] ⟨0, 0, 0, 0, [], [], 0⟩ = .error .invalidOption ∧
    ProcessImageToSVG trivCollab [] ⟨1, 0, 0, 0, [], [], 0⟩ =
      ProcessImageToSVG trivCollab2 [] ⟨1, 0, 0, 0, [], [], 0⟩ := by
  refine ⟨(claim_C7 trivCollab trivCollab [] _).1 rfl,
          (claim_C7 trivCollab trivCollab _ _).2.1 ?_,
          (claim_C7 trivCollab trivCollab [7] _).2.2.1 (by decide) (by decide) (by decide),
          (claim_C7 trivCollab trivCollab2 [] _).2.2.2 ⟨.emptyInput, rfl⟩⟩
  simp [List.length_replicate]

/-- Claim C8: options normalization clamps the transparency threshold into
`[0,1]` (never rejecting it), defaults an empty background color to exactly
`#000000` and an empty transparency color to exactly `#FFFFFF`, leaves
non-empty color strings unchanged, and maps thresholds `-1`, `3/2` and `1/2`
to `0`, `1` and `1/2`. -/
theorem claim_C8 : ∀ o : Options,
    (setDefaults o).TransparencyThreshold = max 0 (min 1 o.TransparencyThreshold) ∧
    (setDefaults o).TransparencyThreshold ∈ Set.Icc (0 : ℚ) 1 ∧
    (setDefaults o).BackgroundColor =
      (if o.BackgroundColor = [] then String.toList "#000000" else o.BackgroundColor) ∧
    (setDefaults o).TransparencyColor =
      (if o.TransparencyColor = [] then String.toList "#FFFFFF" else o.TransparencyColor) ∧
    (setDefaults { o with TransparencyThreshold := -1 }).TransparencyThreshold = 0 ∧
    (setDefaults { o with TransparencyThreshold := 3/2 }).TransparencyThreshold = 1 ∧
    (setDefaults { o with TransparencyThreshold := 1/2 }).TransparencyThreshold = 1/2 := by
  intro o
  refine ⟨rfl, ⟨le_max_left 0 _, max_le (by norm_num) (min_le_left 1 _)⟩, rfl, rfl, ?_, ?_, ?_⟩
  · show max 0 (min 1 (-1 : ℚ)) = 0
    norm_num
  · show max 0 (min 1 (3/2 : ℚ)) = 1
    norm_num
  · show max 0 (min 1 (1/2 : ℚ)) = 1/2
    norm_num

/-- Claim C9: the pipeline is deterministic: on byte-for-byte identical input
and identical options (with the same collaborator functions) it produces the
identical result, success or typed failure. -/
theorem claim_C9 : ∀ (c : Collab) (d1 d2 : List ℕ) (o1 o2 : Options),
    d1 = d2 → o1 = o2 → ProcessImageToSVG c d1 o1 = ProcessImageToSVG c d2 o2 := by
  intro c d1 d2 o1 o2 hd ho
  rw [hd, ho]

/-- Witness for C9 at a concrete input. -/
theorem claim_C9_witness :
    ProcessImageToSVG trivCollab [3] ⟨1, 0, 0, 0, [], [], 0⟩ =
      ProcessImageToSVG trivCollab [3] ⟨1, 0, 0, 0, [], [], 0⟩ :=
  claim_C9 trivCollab [3] [3] ⟨1, 0, 0, 0, [], [], 0⟩ ⟨1, 0, 0, 0, [], [], 0⟩ rfl rfl

/-- Claim C6: the run extractor fails with `EmptyInput` exactly when the
source stream is empty, with `ParseError` exactly when the ANSI parser rejects
the (non-empty) stream, and with `TooManyElements` exactly when the parsed run
count exceeds 100000; any run count at or below the cap succeeds (the 30000
warning threshold never changes the result). -/
theorem claim_C6 : ∀ (ap : GoStr → Except Unit (Option (List (Option StyledText)))) (s : GoStr),
    (parseANSI ap s = .error .emptyInput ↔ s = []) ∧
    (s ≠ [] → (parseANSI ap s = .error .parseError ↔ ap s = .error ())) ∧
    (∀ st, s ≠ [] → ap s = .ok (some st) →
      ((parseANSI ap s = .error .tooManyElements ↔ maxStyledElements < st.length) ∧
       (st.length ≤ maxStyledElements → parseANSI ap s = .ok st))) := by
  intro ap s
  by_cases hs : s = []
  · subst hs
    refine ⟨by simp [parseANSI], fun h => absurd rfl h, fun st h => absurd rfl h⟩
  · refine ⟨?_, fun _ => ?_, fun st _ hap => ?_⟩
    · rw [parseANSI, if_neg hs]
      rcases hap : ap s with e | o
      · simp [hs]
      · rcases o with _ | st
        · simp [hs]
        · constructor
          · intro h
            simp only at h
            split at h <;> simp_all
          · intro h
            exact absurd h hs
    · rw [parseANSI, if_neg hs]
      rcases hap : ap s with e | o
      · simp
      · rcases o with _ | st
        · constructor
          · intro h
            simp at h
          · intro h
            simp at h
        · constructor
          · intro h
            simp only at h
            split at h <;> simp_all
          · intro h
            simp at h
    · rw [parseANSI, if_neg hs, hap]
      constructor
      · constructor
        · intro h
          simp only at h
          split at h <;> simp_all
        · intro h
          simp [h]
      · intro h
        simp [show ¬ st.length > maxStyledElements from by omega]

/-- Witness for C6: a one-char stream with a parser returning an empty run
list succeeds. -/
theorem claim_C6_witness :
    parseANSI (fun _ => .ok (some [])) ['x'] = .ok [] :=
  ((claim_C6 (fun _ => .ok (some [])) ['x']).2.2 [] (by decide) rfl).2 (by decide)

/-- Claim C10: for every non-nil styled-text input and background color, the
background rectangle's fill style is literally `fill:` followed by the
backgroundColor string verbatim (so it contains it, with no parsing,
expansion, validation or fallback) — in contrast to the transparency color,
whose `parseHexColor` path rejects non-hex strings and expands 3-digit ones. -/
theorem claim_C10 : ∀ (st : List (Option StyledText)) (bg : GoStr),
    (renderToSVG (some st) bg).map SVGDoc.rectStyle = .ok (String.toList "fill:" ++ bg) ∧
    (∃ pre post, rectStyleOf (renderToSVG (some st) bg) = pre ++ bg ++ post) ∧
    parseHexColor (String.toList "#xyz") = none ∧
    rectStyleOf (renderToSVG (some []) (String.toList "#xyz")) = String.toList "fill:#xyz" ∧
    parseHexColor (String.toList "#abc") = some ⟨170, 187, 204⟩ ∧
    rectStyleOf (renderToSVG (some []) (String.toList "#abc")) = String.toList "fill:#abc" := by
  intro st bg
  refine ⟨rfl, ⟨String.toList "fill:", [], by simp [renderToSVG, rectStyleOf]⟩,
          by decide, by decide, by decide, by decide⟩

/-- The character-count fold of one line is the sum of the label lengths. -/
lemma lineLen_eq_sum : ∀ (line : List StyledText) (a : ℕ),
    line.foldl (fun acc r => acc + r.label.length) a =
      a + (line.map (fun r => r.label.length)).sum := by
  intro line
  induction line with
  | nil => simp
  | cons r rest ih =>
    intro a
    simp [ih, Nat.add_assoc]

/-- The running-maximum fold equals the `max`-fold over the mapped list. -/
lemma foldl_runmax_eq : ∀ (lines : List (List StyledText)) (m : ℕ),
    lines.foldl (fun m l => if lineLen l > m then lineLen l else m) m =
      max m ((lines.map lineLen).foldr max 0) := by
  intro lines
  induction lines with
  | nil => simp
  | cons l ls ih =>
    intro m
    have hstep : (if lineLen l > m then lineLen l else m) = max m (lineLen l) := by
      split <;> omega
    simp only [List.foldl_cons, List.map_cons, List.foldr_cons, hstep, ih]
    omega

/-- Claim C5: canvas width and height follow the spec's formulas with the
one-cell floor replacements, are always positive, a nil styled-text reference
fails with `NilInput`, and an empty sequence succeeds with the minimal
floor-dimension canvas. -/
theorem claim_C5 : ∀ (lines : List (List StyledText)) (bg : GoStr),
    calculateSVGDimensions lines = calculateSVGDimensionsSpec lines ∧
    0 < (calculateSVGDimensions lines).1 ∧ 0 < (calculateSVGDimensions lines).2 ∧
    renderToSVG none bg = .error .nilInput ∧
    (∃ doc, renderToSVG (some []) bg = .ok doc ∧
      doc.width = charWidth + paddingLeft + paddingRight ∧
      doc.height = lineHeight + paddingTop + paddingBottom) := by
  intro lines bg
  have hmax : maxLineLen lines = (lines.map (fun l => (l.map (fun r => r.label.length)).sum)).foldr max 0 := by
    have : (lines.map lineLen) = lines.map (fun l => (l.map (fun r => r.label.length)).sum) := by
      apply List.map_congr_left
      intro l _
      simpa using lineLen_eq_sum l 0
    rw [maxLineLen, foldl_runmax_eq, this]
    omega
  refine ⟨?_, ?_, ?_, rfl, ?_⟩
  · rw [calculateSVGDimensions, calculateSVGDimensionsSpec, hmax]
  · rw [calculateSVGDimensions]
    simp only [charWidth, paddingLeft, paddingRight]
    split <;> omega
  · rw [calculateSVGDimensions]
    simp only [lineHeight, paddingTop, paddingBottom]
    split <;> omega
  · refine ⟨_, rfl, ?_, ?_⟩
    · show (calculateSVGDimensions (splitStyledTextByLine [])).1 =
        charWidth + paddingLeft + paddingRight
      decide
    · show (calculateSVGDimensions (splitStyledTextByLine [])).2 =
        lineHeight + paddingTop + paddingBottom
      decide

/-- `renderLineAux` with an accumulator-threading fold: the fold's primitive
list is the already-emitted prefix followed by the remaining primitives. -/
lemma renderLineSpec_aux (y : ℤ) : ∀ (line : List StyledText) (x : ℤ) (acc : List TextPrim),
    (line.foldl
      (fun acc r =>
        if r.label = [] then acc
        else if r.label = [' '] then (acc.1, acc.2 + charWidth)
        else (acc.1 ++ [⟨acc.2, y, r.label, styleOf r⟩], acc.2 + (r.label.length : ℤ) * charWidth))
      (acc, x)).1 = acc ++ renderLineAux line y x := by
  intro line
  induction line with
  | nil => simp [renderLineAux]
  | cons r rest ih =>
    intro x acc
    by_cases h1 : r.label = []
    · simp [renderLineAux, h1, ih]
    · by_cases h2 : r.label = [' ']
      · simp [renderLineAux, h1, h2, ih]
      · simp [renderLineAux, h1, h2, ih]

/-- The number of primitives a line emits equals the number of its runs that
are neither empty nor a single space. -/
lemma renderLineAux_length (y : ℤ) : ∀ (line : List StyledText) (x : ℤ),
    (renderLineAux line y x).length =
      (line.filter (fun r => !(r.label == []) && !(r.label == [' ']))).length := by
  intro line
  induction line with
  | nil => simp [renderLineAux]
  | cons r rest ih =>
    intro x
    by_cases h1 : r.label = []
    · simp [renderLineAux, h1, ih]
    · by_cases h2 : r.label = [' ']
      · simp [renderLineAux, h1, h2, ih]
      · simp [renderLineAux, h1, h2, ih]

/-- Counterexample to claim C3 as stated: a run whose label is two spaces is
"blank/space-only", yet the code emits a text primitive for it (only a label
that is exactly one single space advances the cursor silently). -/
theorem claim_C3_counterexample :
    renderLine [⟨[' ', ' '], none, none, 0⟩] 5 7 ≠ [] ∧
    (renderLine [⟨[' ', ' '], none, none, 0⟩] 5 7).length = 1 := by
  decide

/-- Claim C3 (amended): runs with an empty label are skipped without moving
the cursor; a run whose label is exactly one single space advances the cursor
by one glyph-cell width without emitting; every other run — including
multi-character space-only runs — emits exactly one text primitive at the
cursor with the run's text and resolved color, the cursor then advancing by
text length × glyph-cell width; the resolved color defaults to `#FFFFFF` when
the foreground color is absent or has an empty hex. -/
theorem claim_C3_amended : ∀ (line : List StyledText) (y x : ℤ),
    renderLine line y x = renderLineSpec line y x ∧
    (renderLine line y x).length =
      (line.filter (fun r => !(r.label == []) && !(r.label == [' ']))).length ∧
    (∀ r : StyledText, r.fgCol = none → textColorOf r = String.toList "#FFFFFF") ∧
    (∀ (r : StyledText) (c : Col), r.fgCol = some c → c.hex = [] →
      textColorOf r = String.toList "#FFFFFF") ∧
    (∀ (r : StyledText) (c : Col), r.fgCol = some c → c.hex ≠ [] → textColorOf r = c.hex) := by
  intro line y x
  refine ⟨?_, renderLineAux_length y line x, fun r hr => ?_, fun r c hr hc => ?_, fun r c hr hc => ?_⟩
  · rw [renderLine, renderLineSpec, renderLineSpec_aux y line x []]
    simp
  · simp [textColorOf, hr]
  · simp [textColorOf, hr, hc]
  · simp [textColorOf, hr, hc]

/-- Witness for C3 (amended) at a concrete line: one colored run, one
single-space run, one empty run and one default-colored run. -/
theorem claim_C3_witness :
    renderLine [⟨['a'], some ⟨String.toList "#ff0000"⟩, none, 0⟩, ⟨[' '], none, none, 0⟩,
        ⟨[], none, none, 0⟩, ⟨['b'], none, none, 0⟩] 0 1 =
      renderLineSpec [⟨['a'], some ⟨String.toList "#ff0000"⟩, none, 0⟩, ⟨[' '], none, none, 0⟩,
        ⟨[], none, none, 0⟩, ⟨['b'], none, none, 0⟩] 0 1 ∧
    textColorOf ⟨['b'], none, none, 0⟩ = String.toList "#FFFFFF" :=
  ⟨(claim_C3_amended [⟨['a'], some ⟨String.toList "#ff0000"⟩, none, 0⟩, ⟨[' '], none, none, 0⟩,
      ⟨[], none, none, 0⟩, ⟨['b'], none, none, 0⟩] 0 1).1,
   (claim_C3_amended [] 0 0).2.2.1 ⟨['b'], none, none, 0⟩ rfl⟩

/-- Go's float-to-int conversion agrees with the floor on nonnegative values. -/
lemma goTrunc_of_nonneg {q : ℚ} (h : 0 ≤ q) : goTrunc q = ⌊q⌋ :=
  if_neg (not_lt.mpr h)

/-- Truncation of a nonnegative value bounded by an integer stays bounded. -/
lemma goTrunc_le_int {q : ℚ} {n : ℤ} (h0 : 0 ≤ q) (h : q ≤ (n : ℚ)) : goTrunc q ≤ n := by
  rw [goTrunc_of_nonneg h0]
  exact (Int.floor_le_floor h).trans_eq (Int.floor_intCast n)

/-- Counterexample to claim C2 as stated, refuting both of its formulas.
First, the rounding: for a 3×2 image and targetWidth 10 the code truncates
`10 × 2/3` to 6, while the claimed rounding gives 7. Second, the cap: for a
600×601 image and targetWidth 600 the pre-cap dimensions are (600, 601) and
the code's sequential caps give (500, 500), while scaling both dimensions by
the ratio `500/601` that brings the larger one to 500 gives a width of
`600 × 500/601 ≈ 499.17`, i.e. 499 under the code's truncation and under
rounding alike — not the 500 the code produces. -/
theorem claim_C2_counterexample :
    (asciiDims 3 2 10 = (10, 6) ∧
     (round ((10 : ℚ) * ((2 : ℚ) / (3 : ℚ))) : ℤ) = 7 ∧
     (asciiDims 3 2 10).2 ≠ round ((10 : ℚ) * ((2 : ℚ) / (3 : ℚ)))) ∧
    (asciiDims 600 601 600 = (500, 500) ∧
     goTrunc ((600 : ℚ) * ((500 : ℚ) / (601 : ℚ))) = 499 ∧
     (round ((600 : ℚ) * ((500 : ℚ) / (601 : ℚ))) : ℤ) = 499 ∧
     (asciiDims 600 601 600).1 ≠ goTrunc ((600 : ℚ) * ((500 : ℚ) / (601 : ℚ))) ∧
     (asciiDims 600 601 600).1 ≠ round ((600 : ℚ) * ((500 : ℚ) / (601 : ℚ)))) := by
  have hpre : asciiPreHeight 3 2 10 = 6 := by
    rw [asciiPreHeight]
    norm_num [goTrunc]
  have hs1 : asciiStage1 3 2 10 = (10, 6) := by
    rw [asciiStage1, if_neg (by norm_num [MaxASCIIDimension]), hpre]
  have hd : asciiDims 3 2 10 = (10, 6) := by
    rw [asciiDims, hs1]
    norm_num [MaxASCIIDimension]
  have hround : (round ((10 : ℚ) * ((2 : ℚ) / (3 : ℚ))) : ℤ) = 7 := by
    rw [round_eq]
    norm_num
  have hpre6 : asciiPreHeight 600 601 600 = 601 := by
    rw [asciiPreHeight]
    norm_num [goTrunc]
  have hs16 : asciiStage1 600 601 600 = (500, 500) := by
    rw [asciiStage1, if_pos (by norm_num [MaxASCIIDimension]), hpre6]
    norm_num [MaxASCIIDimension, goTrunc]
  have hd6 : asciiDims 600 601 600 = (500, 500) := by
    rw [asciiDims, hs16]
    norm_num [MaxASCIIDimension]
  have htr6 : goTrunc ((600 : ℚ) * ((500 : ℚ) / (601 : ℚ))) = 499 := by
    norm_num [goTrunc]
  have hro6 : (round ((600 : ℚ) * ((500 : ℚ) / (601 : ℚ))) : ℤ) = 499 := by
    rw [round_eq]
    norm_num
  refine ⟨⟨hd, hround, by rw [hd, hround]; decide⟩,
          hd6, htr6, hro6, ?_, ?_⟩
  · rw [hd6, htr6]
    decide
  · rw [hd6, hro6]
    decide

/-- Claim C2 (amended): the pre-cap target height is the truncation (not the
rounding) of `targetWidth × h/w`, floored at 1; the two caps are applied in
sequence, not by one rescale of the larger dimension: first, if targetWidth
exceeds 500 the width becomes 500 and the height is rescaled by
`500/targetWidth` (truncated); then, if the resulting height exceeds 500 the
height becomes 500 and the width is rescaled by `500/height` (truncated);
both final dimensions are at most 500; and the concrete scenarios hold:
(200,100) with targetWidth 100 gives height 50, with targetWidth 1000 gives
(500, 250) (height scaled by 500/1000), and (1,10) with targetWidth 100
exercises the height cap, giving (50, 500). -/
theorem claim_C2_amended : ∀ (w h : ℕ) (tw : ℤ), 0 < w → 0 < h → 0 < tw →
    ((asciiDims w h tw).1 ≤ MaxASCIIDimension ∧ (asciiDims w h tw).2 ≤ MaxASCIIDimension) ∧
    asciiPreHeight w h tw = max 1 (goTrunc ((tw : ℚ) * ((h : ℚ) / (w : ℚ)))) ∧
    (tw ≤ MaxASCIIDimension → asciiStage1 w h tw = (tw, asciiPreHeight w h tw)) ∧
    (MaxASCIIDimension < tw →
      asciiStage1 w h tw =
        (MaxASCIIDimension,
         goTrunc ((asciiPreHeight w h tw : ℚ) * ((MaxASCIIDimension : ℚ) / (tw : ℚ))))) ∧
    ((asciiStage1 w h tw).2 ≤ MaxASCIIDimension → asciiDims w h tw = asciiStage1 w h tw) ∧
    (MaxASCIIDimension < (asciiStage1 w h tw).2 →
      asciiDims w h tw =
        (goTrunc (((asciiStage1 w h tw).1 : ℚ) *
          ((MaxASCIIDimension : ℚ) / ((asciiStage1 w h tw).2 : ℚ))), MaxASCIIDimension)) ∧
    asciiDims 200 100 100 = (100, 50) ∧
    asciiDims 200 100 1000 = (500, 250) ∧
    asciiDims 1 10 100 = (50, 500) := by
  intro w h tw hw hh htw
  have hs1w_pos : 0 < (asciiStage1 w h tw).1 := by
    rw [asciiStage1]
    split
    · norm_num [MaxASCIIDimension]
    · exact htw
  have hs1w_le : (asciiStage1 w h tw).1 ≤ MaxASCIIDimension := by
    rw [asciiStage1]
    split
    · norm_num
    · simpa using le_of_not_lt (by assumption)
  refine ⟨?_, ?_, fun h1 => ?_, fun h1 => ?_, fun h1 => ?_, fun h1 => ?_, ?_, ?_, ?_⟩
  · rw [asciiDims]
    split
    · rename_i hcap
      constructor
      · have hpos : (0 : ℚ) < ((asciiStage1 w h tw).2 : ℚ) := by
          have : (0 : ℤ) < (asciiStage1 w h tw).2 :=
            lt_trans (by norm_num [MaxASCIIDimension]) hcap
          exact_mod_cast this
        have hq0 : 0 ≤ ((asciiStage1 w h tw).1 : ℚ) *
            ((MaxASCIIDimension : ℚ) / ((asciiStage1 w h tw).2 : ℚ)) := by
          apply mul_nonneg
          · exact_mod_cast le_of_lt hs1w_pos
          · apply div_nonneg _ (le_of_lt hpos)
            norm_num [MaxASCIIDimension]
        apply goTrunc_le_int hq0
        have hle1 : (MaxASCIIDimension : ℚ) / ((asciiStage1 w h tw).2 : ℚ) ≤ 1 := by
          rw [div_le_one hpos]
          exact_mod_cast le_of_lt hcap
        calc ((asciiStage1 w h tw).1 : ℚ) *
              ((MaxASCIIDimension : ℚ) / ((asciiStage1 w h tw).2 : ℚ)) ≤
              ((asciiStage1 w h tw).1 : ℚ) * 1 := by
              apply mul_le_mul_of_nonneg_left hle1
              exact_mod_cast le_of_lt hs1w_pos
          _ ≤ (MaxASCIIDimension : ℚ) := by
              rw [mul_one]
              exact_mod_cast hs1w_le
      · norm_num
    · exact ⟨hs1w_le, le_of_not_lt (by assumption)⟩
  · simp only [asciiPreHeight]
    split <;> omega
  · rw [asciiStage1, if_neg (not_lt.mpr h1)]
  · rw [asciiStage1, if_pos h1]
  · rw [asciiDims, if_neg (not_lt.mpr h1)]
  · rw [asciiDims, if_pos h1]
  · have hpre : asciiPreHeight 200 100 100 = 50 := by
      rw [asciiPreHeight]
      norm_num [goTrunc]
    have hs1 : asciiStage1 200 100 100 = (100, 50) := by
      rw [asciiStage1, if_neg (by norm_num [MaxASCIIDimension]), hpre]
    rw [asciiDims, hs1]
    norm_num [MaxASCIIDimension]
  · have hpre : asciiPreHeight 200 100 1000 = 500 := by
      rw [asciiPreHeight]
      norm_num [goTrunc]
    have hs1 : asciiStage1 200 100 1000 = (500, 250) := by
      rw [asciiStage1, if_pos (by norm_num [MaxASCIIDimension]), hpre]
      norm_num [MaxASCIIDimension, goTrunc]
    rw [asciiDims, hs1]
    norm_num [MaxASCIIDimension]
  · have hpre : asciiPreHeight 1 10 100 = 1000 := by
      rw [asciiPreHeight]
      norm_num [goTrunc]
    have hs1 : asciiStage1 1 10 100 = (100, 1000) := by
      rw [asciiStage1, if_neg (by norm_num [MaxASCIIDimension]), hpre]
    rw [asciiDims, hs1]
    norm_num [MaxASCIIDimension, goTrunc]

/-- Witness for C2 (amended): the spec's two aspect-ratio scenarios plus the
height-cap scenario, evaluated through the theorem. -/
theorem claim_C2_witness :
    asciiDims 200 100 100 = (100, 50) ∧ asciiDims 200 100 1000 = (500, 250) ∧
    asciiDims 1 10 100 = (50, 500) :=
  ⟨(claim_C2_amended 200 100 100 (by norm_num) (by norm_num) (by norm_num)).2.2.2.2.2.2.1,
   (claim_C2_amended 200 100 1000 (by norm_num) (by norm_num) (by norm_num)).2.2.2.2.2.2.2.1,
   (claim_C2_amended 1 10 100 (by norm_num) (by norm_num) (by norm_num)).2.2.2.2.2.2.2.2⟩

/-- The alpha threshold of a threshold at most 1 never exceeds full opacity. -/
lemma alphaThresholdOf_le {t : ℚ} (h : t ≤ 1) : alphaThresholdOf t ≤ 65535 := by
  rw [alphaThresholdOf]
  have hmul : t * 65535 ≤ 65535 := by
    calc t * 65535 ≤ 1 * 65535 := by
          apply mul_le_mul_of_nonneg_right h
          norm_num
      _ = 65535 := by norm_num
  have hfl : ⌊t * 65535⌋ ≤ (65535 : ℤ) := by
    calc ⌊t * 65535⌋ ≤ ⌊(65535 : ℚ)⌋ := Int.floor_le_floor hmul
      _ = 65535 := by norm_num
  exact Int.toNat_le.mpr hfl

/-- The code's blended channel at alpha factor `a/65535` equals the spec's
blend formula quantized to a byte. -/
lemma blendChan_eq_spec (v tv a : ℕ) (ha : a ≤ 65535) :
    blendChan v tv ((a : ℚ) / 65535) = blendChanSpec v tv a := by
  rw [blendChan, blendChanSpec, goU8ofRat]
  have hA0 : (0 : ℚ) ≤ (a : ℚ) / 65535 := by positivity
  have hA1 : (a : ℚ) / 65535 ≤ 1 := by
    rw [div_le_one (by norm_num)]
    exact_mod_cast ha
  have hq0 : 0 ≤ (((v : ℚ) / 65535) * ((a : ℚ) / 65535) +
      (((tv : ℚ) * 257) / 65535) * (1 - (a : ℚ) / 65535)) * 255 := by
    apply mul_nonneg _ (by norm_num)
    apply add_nonneg
    · exact mul_nonneg (by positivity) hA0
    · exact mul_nonneg (by positivity) (by linarith)
  rw [goTrunc_of_nonneg hq0]
  have harg : (((v : ℚ) / 65535) * ((a : ℚ) / 65535) +
      (((tv : ℚ) * 257) / 65535) * (1 - (a : ℚ) / 65535)) * 255 =
      ((v : ℚ) * ((a : ℚ) / 65535) + ((tv : ℚ) * 257) * (1 - (a : ℚ) / 65535)) / 65535 * 255 := by
    ring
  rw [harg]

/-- Counterexample to claim C1 as stated: the 6-char string `+1+1+1` is not
six hex digits, yet `parseHexColor` accepts it (Go's `strconv.ParseInt`
allows a sign per 2-char group), so the substitute is (1,1,1), not white;
and a fully-opaque 16-bit pixel is re-quantized through the 8-bit output
canvas, so its `RGBA()` view does not equal the input pixel. -/
theorem claim_C1_counterexample :
    (handleTransparencyPixelStr (String.toList "+1+1+1") 1 ⟨0, 0, 0, 0⟩ = ⟨1, 1, 1, 255⟩ ∧
     (⟨1, 1, 1, 255⟩ : Pix8) ≠ ⟨255, 255, 255, 255⟩) ∧
    pix16View (handleTransparencyPixelStr [] 0 ⟨300, 0, 0, 65535⟩) ≠ ⟨300, 0, 0, 65535⟩ := by
  constructor
  · constructor
    · have hT : alphaThresholdOf 1 = 65535 := by
        rw [alphaThresholdOf]
        have h : ⌊(1 : ℚ) * 65535⌋ = 65535 := by norm_num
        rw [h]
        rfl
      simp only [handleTransparencyPixelStr, hT]
      decide
    · decide
  · have hT : alphaThresholdOf 0 = 0 := by
      rw [alphaThresholdOf]
      have h : ⌊(0 : ℚ) * 65535⌋ = 0 := by norm_num
      rw [h]
      rfl
    simp only [handleTransparencyPixelStr, hT]
    decide

/-- Claim C1 (amended): with the threshold `T = toNat ⌊t × 65535⌋` and the
substitute color resolved by `parseHexColor` (a 3-char string is expanded by
doubling each character; parsing succeeds iff the 6-char form splits into
three 2-char groups each accepted by Go's signed base-16 `ParseInt`, the
values reduced mod 256; anything else falls back to opaque white): a pixel
with `a < T` becomes the substitute at full opacity; with `T ≤ a < 65535` it
becomes the spec's linear blend quantized to the 8-bit canvas, forced opaque;
with `a = 65535` it is stored unchanged through the canvas' 8-bit conversion
(exactly the input pixel whenever the input is 8-bit-representable); and
every output pixel is fully opaque. -/
theorem claim_C1_amended : ∀ (s : GoStr) (t : ℚ) (p : Pix16),
    0 ≤ t → t ≤ 1 → p.r ≤ 65535 → p.g ≤ 65535 → p.b ≤ 65535 → p.a ≤ 65535 →
    (p.a < alphaThresholdOf t →
      handleTransparencyPixelStr s t p =
        ⟨((parseHexColor s).getD white).r, ((parseHexColor s).getD white).g,
         ((parseHexColor s).getD white).b, 255⟩) ∧
    (alphaThresholdOf t ≤ p.a → p.a < 65535 →
      handleTransparencyPixelStr s t p =
        ⟨blendChanSpec p.r ((parseHexColor s).getD white).r p.a,
         blendChanSpec p.g ((parseHexColor s).getD white).g p.a,
         blendChanSpec p.b ((parseHexColor s).getD white).b p.a, 255⟩) ∧
    (p.a = 65535 →
      handleTransparencyPixelStr s t p = ⟨p.r / 256, p.g / 256, p.b / 256, 255⟩ ∧
      (∀ q : Pix8, p = pix16View q → pix16View (handleTransparencyPixelStr s t p) = p)) ∧
    (handleTransparencyPixelStr s t p).a = 255 ∧
    (∀ a b c : Char, parseHexColor ['#', a, b, c] = parseHexColor ['#', a, a, b, b, c, c]) ∧
    parseHexColor (String.toList "#abc") = some ⟨170, 187, 204⟩ ∧
    (parseHexColor s = none → (parseHexColor s).getD white = white) := by
  intro s t p h0 h1 hr hg hb ha
  have hT : alphaThresholdOf t ≤ 65535 := alphaThresholdOf_le h1
  refine ⟨fun hlt => ?_, fun hge hlt => ?_, fun heq => ?_, ?_, fun a b c => rfl, by decide,
    fun h => by simp [h]⟩
  · rw [handleTransparencyPixelStr, handleTransparencyPixel, if_pos hlt]
  · rw [handleTransparencyPixelStr, handleTransparencyPixel, if_neg (not_lt.mpr hge),
      if_pos hlt]
    show (⟨blendChan p.r ((parseHexColor s).getD white).r ((p.a : ℚ) / 65535),
          blendChan p.g ((parseHexColor s).getD white).g ((p.a : ℚ) / 65535),
          blendChan p.b ((parseHexColor s).getD white).b ((p.a : ℚ) / 65535), 255⟩ : Pix8) = _
    rw [blendChan_eq_spec _ _ _ ha, blendChan_eq_spec _ _ _ ha, blendChan_eq_spec _ _ _ ha]
  · have hout : handleTransparencyPixelStr s t p = ⟨p.r / 256, p.g / 256, p.b / 256, 255⟩ := by
      rw [handleTransparencyPixelStr, handleTransparencyPixel, if_neg (by omega),
        if_neg (by omega), heq]
    refine ⟨hout, fun q hq => ?_⟩
    have hqr : p.r = q.r * 257 := by rw [hq]; rfl
    have hqg : p.g = q.g * 257 := by rw [hq]; rfl
    have hqb : p.b = q.b * 257 := by rw [hq]; rfl
    have hqa : p.a = q.a * 257 := by rw [hq]; rfl
    rw [hout, pix16View]
    rw [hq, pix16View]
    simp only [Pix16.mk.injEq]
    refine ⟨?_, ?_, ?_, ?_⟩ <;> omega
  · rw [handleTransparencyPixelStr, handleTransparencyPixel]
    split_ifs with hb1 hb2
    · rfl
    · rfl
    · show p.a / 256 = 255
      omega

/-- Witness for C1 (amended): a half threshold and a fully opaque
8-bit-representable pixel under the substitute `#102030`. -/
theorem claim_C1_witness :
    (0 : ℚ) ≤ 1/2 ∧ (1/2 : ℚ) ≤ 1 ∧
    handleTransparencyPixelStr (String.toList "#102030") (1/2) ⟨257, 514, 771, 65535⟩ =
      ⟨1, 2, 3, 255⟩ := by
  refine ⟨by norm_num, by norm_num, ?_⟩
  have h := (claim_C1_amended (String.toList "#102030") (1/2) ⟨257, 514, 771, 65535⟩
    (by norm_num) (by norm_num) (by decide) (by decide) (by decide) (by decide)).2.2.1 rfl
  exact h.1

/-- `strings.Split` never returns an empty list. -/
lemma splitParts_ne_nil : ∀ s : GoStr, splitParts s ≠ [] := by
  intro s
  cases s with
  | nil => simp [splitParts]
  | cons c rest =>
    rw [splitParts]
    split
    · simp
    · rcases h : splitParts rest with _ | ⟨p, ps⟩ <;> simp

/-- Prepend a pending fragment onto the head part of a split. -/
def fragCons (frag : GoStr) : List GoStr → List GoStr
  | [] => [frag]
  | p :: ps => (frag ++ p) :: ps

/-- The char-by-char scan of a block's label equals the split-then-fold loop
of the code, with the pending fragment joined onto the first part. -/
lemma scanBlockChars_eq (b : StyledText) : ∀ (cs : GoStr) (frag : GoStr)
    (lines : List (List StyledText)) (cur : List StyledText),
    scanBlockChars b cs frag (lines, cur) =
      splitPartsFold b (fragCons frag (splitParts cs)) (lines, cur) := by
  intro cs
  induction cs with
  | nil =>
    intro frag lines cur
    simp [scanBlockChars, splitParts, fragCons, splitPartsFold]
  | cons c cs ih =>
    intro frag lines cur
    by_cases hc : c = '\n'
    · subst hc
      rw [scanBlockChars, if_pos rfl, ih]
      rw [splitParts, if_pos rfl]
      rcases hsp : splitParts cs with _ | ⟨p, ps⟩
      · exact absurd hsp (splitParts_ne_nil cs)
      · simp [fragCons, splitPartsFold]
    · rw [scanBlockChars, if_neg hc, ih]
      rw [splitParts, if_neg hc]
      rcases hsp : splitParts cs with _ | ⟨p, ps⟩
      · exact absurd hsp (splitParts_ne_nil cs)
      · simp [fragCons]

/-- Folding the code's per-block loop over the blocks equals folding the
spec's char scan over the non-nil blocks. -/
lemma fold_blocks_eq : ∀ (sts : List (Option StyledText))
    (acc : List (List StyledText) × List StyledText),
    sts.foldl
      (fun acc ob =>
        match ob with
        | none => acc
        | some b => splitPartsFold b (splitParts b.label) acc)
      acc =
    (sts.filterMap id).foldl (fun acc b => scanBlockChars b b.label [] acc) acc := by
  intro sts
  induction sts with
  | nil => intro acc; rfl
  | cons ob rest ih =>
    intro acc
    rcases ob with _ | b
    · simp only [List.foldl_cons, List.filterMap_cons, id_eq, ih]
    · rcases acc with ⟨lines, cur⟩
      simp only [List.foldl_cons, List.filterMap_cons, id_eq]
      rw [ih, scanBlockChars_eq]
      rcases hsp : splitParts b.label with _ | ⟨p, ps⟩
      · exact absurd hsp (splitParts_ne_nil b.label)
      · simp [hsp, fragCons]

/-- Claim C4: line splitting follows the spec's scan (labels split at each
literal newline, the pre-newline portion appended with zero-length fragments
dropped, a new line started, and a final non-empty pending line appended);
a blank line between two consecutive newlines is preserved and still occupies
one line-height stride in the rendered output (the run of `b` below sits two
line heights under the run of `a`). -/
theorem claim_C4 : ∀ st : List (Option StyledText),
    splitStyledTextByLine st = splitStyledTextByLineSpec st ∧
    splitStyledTextByLine [some ⟨String.toList "a\n\nb", none, none, 0⟩] =
      [[⟨['a'], none, none, 0⟩], [], [⟨['b'], none, none, 0⟩]] ∧
    textsOf (renderToSVG (some [some ⟨String.toList "a\n\nb", none, none, 0⟩]) []) =
      [⟨paddingLeft, paddingTop, ['a'], styleOf ⟨['a'], none, none, 0⟩⟩,
       ⟨paddingLeft, paddingTop + 2 * lineHeight, ['b'], styleOf ⟨['b'], none, none, 0⟩⟩] := by
  intro st
  refine ⟨?_, by decide, by decide⟩
  rw [splitStyledTextByLine, splitStyledTextByLineSpec, fold_blocks_eq]
  rcases (st.filterMap id).foldl (fun acc b => scanBlockChars b b.label [] acc) ([], []) with
    ⟨lines, cur⟩
  by_cases hc : cur = []
  · simp [hc]
  · simp [hc, List.length_pos.mpr hc]

end ImageToASCIIArt
